import Mathlib

/-!
Verification of the pymedoc Pathway driver (src/pymedoc/devices.py) against its
natural-language specification.  The Python class `Pathway` is shallowly embedded:
the pure codec helpers become Lean functions on `Nat` byte lists, and the socket
session (`call`, `poll_for_change`) becomes a function over an explicit stream of
received responses, producing a trace of I/O events.
-/

namespace Pymedoc

/-! ## Code tables (the dictionaries set up in `Pathway.__init__`) -/

/-- Dictionary `self.test_states`: lookup returns `none` where Python raises `KeyError`. -/
def test_states : Nat → Option String
  | 0 => some "IDLE"
  | 1 => some "RUNNING"
  | 2 => some "PAUSED"
  | 3 => some "READY"
  | _ => none

/-- Dictionary `self.state_codes`. -/
def state_codes : Nat → Option String
  | 0 => some "IDLE"
  | 1 => some "READY"
  | 2 => some "TEST"
  | _ => none

/-- Dictionary `self.command_codes`. -/
def command_codes : Nat → Option String
  | 0 => some "STATUS"
  | 1 => some "TEST_PROGRAM"
  | 2 => some "START"
  | 3 => some "PAUSE"
  | 4 => some "TRIGGER"
  | 5 => some "STOP"
  | 6 => some "ABORT"
  | 7 => some "YES"
  | 8 => some "NO"
  | _ => none

/-- Dictionary `self.response_codes`. -/
def response_codes : Nat → Option String
  | 0 => some "RESULT_OK"
  | 1 => some "RESULT_ILLEGAL_ARG"
  | 2 => some "RESULT_ILLEGAL_STATE"
  | 3 => some "RESULT_ILLEGAL_TEST_STATE"
  | 4096 => some "RESULT_DEVICE_COMM_ERROR"
  | 8192 => some "RESULT_SAFETY_WARNING"
  | 16384 => some "RESULT_SAFETY_ERROR"
  | _ => none

/-! ## Bit-string helpers

`_format_command` uses `bin32 = lambda x: ''.join(reversed([str((x >> i) & 1) for i in range(32)]))`
and `_decode` uses the analogous 8-bit `bin8`.  We model the digit strings as lists of
bits (each 0 or 1); `int(s, 2)` becomes the left fold `int_of_bin`. -/

/-- Evaluation of `int(s, 2)` on a binary digit string, most significant digit first. -/
def int_of_bin (l : List Nat) : Nat := l.foldl (fun a b => 2 * a + b) 0

/-- Helper `bin32` from `_format_command`: 32 binary digits of `x`, most significant first
(bits above position 31 are dropped, as in the Python bit extraction). -/
def bin32 (x : Nat) : List Nat := ((List.range 32).map (fun i => (x >>> i) % 2)).reverse

/-- Helper `bin8` from `_decode`. -/
def bin8 (x : Nat) : List Nat := ((List.range 8).map (fun i => (x >>> i) % 2)).reverse

/-- Evaluation of `int(s[(i-1)*8 : i*8], 2)`: the i-th byte (1-based, from the most significant end)
of a binary digit string. -/
def byteFromBin (s : List Nat) (i : Nat) : Nat := int_of_bin ((s.drop ((i - 1) * 8)).take 8)

/-- The `for i in range(1,5): list.append(int(bin32(x)[(i-1)*8:i*8],2)); list.reverse()`
idiom shared by the timestamp, protocol, and size fields of `_format_command`:
the four bytes of `x`, least significant first. -/
def fourBytesLE (x : Nat) : List Nat :=
  ((List.range' 1 4).map (fun i => byteFromBin (bin32 x) i)).reverse

/-! ## Outbound encoding: `_format_command` -/

/-- Python truthiness of the `protocol` argument (`None` and `0` are falsy). -/
def protocolTruthy : Option Nat → Bool
  | none => false
  | some n => n != 0

/-- Encoder `_format_command(command, protocol)` with the `int(time.time())` timestamp made an
explicit argument `t`.  The final `np.getbuffer(MESSAGE.astype(np.uint8))` step reduces
each element modulo 256. -/
def format_command (t command : Nat) (protocol : Option Nat) : List Nat :=
  let timelist := fourBytesLE t
  let cmd := [command]
  let protocollist :=
    if command == 1 && protocolTruthy protocol then fourBytesLE (protocol.getD 0) else []
  let MESSAGE := timelist ++ cmd ++ protocollist
  let sizelist := fourBytesLE MESSAGE.length
  (sizelist ++ MESSAGE).map (fun v => v % 256)

/-! ## Inbound decoding helpers -/

/-- Decoder helper `_decode(data_int, whichtime)` for an offset pair `(a, b)`.  Python indexes
`dat_int[i]` for `i < b - a`, raising `IndexError` when the input is too short;
that failure is modelled as `none`.  All offset pairs used by the source satisfy
`a < b`. -/
def decodeInt (data : List Nat) (a b : Nat) : Option Nat :=
  let dat_int := (data.drop a).take (b - a)
  if b - a ≤ dat_int.length then
    some (int_of_bin ((dat_int.map bin8).reverse.flatten))
  else none

/-- Formatting `'%.2d' % n` for a natural number: zero-padded to at least two digits. -/
def padDot2 (n : Nat) : String := if n < 10 then "0" ++ toString n else toString n

/-- Formatting `'%3d' % n` for a natural number: SPACE-padded to width three (the source uses
`%3d`, not `%.3d`, for the milliseconds part). -/
def padWidth3 (n : Nat) : String :=
  if n < 10 then "  " ++ toString n
  else if n < 100 then " " ++ toString n
  else toString n

/-- The arithmetic and formatting body of `_decode_test_time`, applied to the raw
millisecond count. -/
def format_test_time (test_time : Nat) : String :=
  let hours := test_time / 3600000
  let mins := (test_time - hours * 3600000) / 60000
  let secs := (test_time - hours * 3600000 - mins * 60000) / 1000
  let msecs := test_time - hours * 3600000 - mins * 60000 - secs * 1000
  padDot2 hours ++ ":" ++ padDot2 mins ++ ":" ++ padDot2 secs ++ "." ++ padWidth3 msecs

/-- Helper `_decode_test_time(data_int)`: decode bytes 13..16 and render them. -/
def decode_test_time (data : List Nat) : Option String :=
  (decodeInt data 13 17).map format_test_time

/-! ## Inbound decoding: `_format_response`

The Python builds an ordinary dict field by field inside a `try` block; the first
exception aborts the remaining fields and the `except` clause returns whatever was
built so far.  `Response` records each dict key as an `Option`: `none` means the key
is absent.  `time.ctime` is injective on the 32-bit timestamps that can occur here,
so the `time_stamp` field stores the decoded integer rather than the rendered text.
`error_message` stores the single byte `data[17]` that the source extracts. -/

structure Response where
  response_length : Option Nat := none
  time_stamp : Option Nat := none
  command_id : Option String := none
  pathway_state : Option String := none
  test_state : Option String := none
  response : Option String := none
  test_time_stamp : Option String := none
  error_message : Option Nat := none
deriving DecidableEq, Repr

/-- Marker for which field raised the exception that `_format_response` caught. -/
inductive DecodeFailure where
  | response_length
  | time_stamp
  | command_id
  | pathway_state
  | test_state
  | response
  | test_time_stamp
  | error_message
deriving DecidableEq, Repr

/-- The `try` body of `_format_response`: the dict built so far, paired with the field
whose decoding raised (if any).  Each step mirrors one assignment of the source:
a failed `_decode` (input too short) or a failed dictionary lookup (`KeyError` on an
unmapped code) stops the sequence. -/
def format_response_tracked (data : List Nat) : Response × Option DecodeFailure :=
  match decodeInt data 0 4 with
  | none => ({}, some .response_length)
  | some len =>
    let r1 : Response := { response_length := some len }
    match decodeInt data 4 8 with
    | none => (r1, some .time_stamp)
    | some ts =>
      let r2 := { r1 with time_stamp := some ts }
      match data.get? 8 with
      | none => (r2, some .command_id)
      | some b8 =>
        match command_codes b8 with
        | none => (r2, some .command_id)
        | some cmd =>
          let r3 := { r2 with command_id := some cmd }
          match data.get? 9 with
          | none => (r3, some .pathway_state)
          | some b9 =>
            match state_codes b9 with
            | none => (r3, some .pathway_state)
            | some pstate =>
              let r4 := { r3 with pathway_state := some pstate }
              match data.get? 10 with
              | none => (r4, some .test_state)
              | some b10 =>
                match test_states b10 with
                | none => (r4, some .test_state)
                | some tstate =>
                  let r5 := { r4 with test_state := some tstate }
                  match decodeInt data 11 13 with
                  | none => (r5, some .response)
                  | some res =>
                    match response_codes res with
                    | none => (r5, some .response)
                    | some resname =>
                      let r6 := { r5 with response := some resname }
                      match decodeInt data 13 17 with
                      | none => (r6, some .test_time_stamp)
                      | some tt =>
                        let r7 := { r6 with test_time_stamp := some (format_test_time tt) }
                        if 13 < len then
                          match data.get? 17 with
                          | none => (r7, some .error_message)
                          | some em => ({ r7 with error_message := some em }, none)
                        else (r7, none)

/-- Decoder `_format_response(data, nbytes)`: the `except` clause swallows the exception
(after printing diagnostics) and the partial dict is returned either way. -/
def format_response (data : List Nat) : Response :=
  (format_response_tracked data).1

/-- Python truthiness of the returned dict: an empty dict is falsy. -/
def Response.isEmptyDict (r : Response) : Bool :=
  r.response_length.isNone && r.time_stamp.isNone && r.command_id.isNone &&
  r.pathway_state.isNone && r.test_state.isNone && r.response.isNone &&
  r.test_time_stamp.isNone && r.error_message.isNone

/-! ## The session: `call`

`call` is modelled over an explicit stream of byte buffers, one per `recv`; each
recursive re-issue of the command consumes the next buffer.  The socket side effects
become an event trace.  The timestamp argument `t` stands for `int(time.time())`;
no claim depends on its value, so the theorems quantify over it. -/

inductive CallEvent where
  | connect
  | sendBytes (msg : List Nat)
  | recvBytes (data : List Nat)
deriving DecidableEq, Repr

inductive CallOutcome where
  | raised (msg : String)
  | returned (r : Response)
  | exhausted
deriving DecidableEq, Repr

/-- Session method `Pathway.call(command, protocol)` with `reuse_socket=False`.  The source opens the
connection first, then validates the TEST_PROGRAM protocol argument with
`if command == 1 and protocol is None: raise ValueError(...)`, then sends, receives
and decodes; a falsy (empty) decoded dict triggers `return self.call(command, protocol)`.
`exhausted` marks a recursion still running when the modelled stream ends. -/
def call (t command : Nat) (protocol : Option Nat) :
    List (List Nat) → List CallEvent × CallOutcome
  | [] =>
    if command == 1 && protocol.isNone then
      ([.connect], .raised "TEST_PROGRAM command requires a protocol number")
    else
      ([.connect, .sendBytes (format_command t command protocol)], .exhausted)
  | data :: rest =>
    if command == 1 && protocol.isNone then
      ([.connect], .raised "TEST_PROGRAM command requires a protocol number")
    else
      let msg := format_command t command protocol
      let r := format_response data
      if r.isEmptyDict then
        let next := call t command protocol rest
        (.connect :: .sendBytes msg :: .recvBytes data :: next.1, next.2)
      else
        ([.connect, .sendBytes msg, .recvBytes data], .returned r)

/-- Number of `send` calls in a trace: one per (re-)issue of the command. -/
def countSends (evs : List CallEvent) : Nat :=
  (evs.filter (fun e => match e with | .sendBytes _ => true | _ => false)).length

/-! ## The polling loop: `poll_for_change`

Each STATUS call of the loop is abstracted by one entry of `vals`: `some v` is a
truthy decoded response whose watched field holds `v`, `none` is a falsy (empty)
response, for which the source substitutes the sentinel string.  The loop body
sleeps `poll_interval` after every call and `server_lag` only on the `True` exit;
the outcome constructor records which exit was taken and how many STATUS calls
were made.  `fuel` bounds the number of loop iterations the model executes;
`outOfFuel` means the source loop would still be running. -/

inductive PollOutcome where
  | finishedTrue (calls : Nat)
  | finishedFalse (calls : Nat)
  | outOfFuel
deriving DecidableEq, Repr

/-- The value the loop compares: the watched field, or the sentinel on a falsy dict. -/
def pollVal : Option String → String
  | some v => v
  | none => "RESPONSE_FORMAT_ERROR"

/-- One-to-one image of the `while val != desired_value` loop: `val` and `count`
are the loop variables (`val` starts `''`, `count` starts 1); after each call the
count is incremented and `if poll_max > 0 and count > poll_max: return False` runs. -/
def poll_loop (vals : Nat → Option String) (desired : String) (poll_max : Int) :
    String → Nat → Nat → PollOutcome
  | _, _count, 0 => .outOfFuel
  | val, count, fuel + 1 =>
    if val = desired then .finishedTrue (count - 1)
    else
      let v := pollVal (vals (count - 1))
      if 0 < poll_max ∧ ((count : Int) + 1 > poll_max) then .finishedFalse count
      else poll_loop vals desired poll_max v (count + 1) fuel

/-- Loop `poll_for_change(to_watch, desired_value, ..., poll_max)`. -/
def poll_for_change (vals : Nat → Option String) (desired : String) (poll_max : Int)
    (fuel : Nat) : PollOutcome :=
  poll_loop vals desired poll_max "" 1 fuel

/-! ## Auxiliary predicates used by the theorems -/

/-- All four code-table lookups of a buffer succeed (spec: a valid buffer). -/
def validCodes (data : List Nat) : Bool :=
  (match data.get? 8 with | some b => (command_codes b).isSome | none => false) &&
  (match data.get? 9 with | some b => (state_codes b).isSome | none => false) &&
  (match data.get? 10 with | some b => (test_states b).isSome | none => false) &&
  (match decodeInt data 11 13 with | some v => (response_codes v).isSome | none => false)

/-- The seven unconditional fields of a fully decoded response are all present. -/
def allDecoded (r : Response) : Prop :=
  r.response_length.isSome = true ∧ r.time_stamp.isSome = true ∧
  r.command_id.isSome = true ∧ r.pathway_state.isSome = true ∧
  r.test_state.isSome = true ∧ r.response.isSome = true ∧
  r.test_time_stamp.isSome = true

/-- The fields of a (possibly partial) response dict form an order-respecting chain:
each field can be present only when every field decoded before it is present. -/
def decodedChain (r : Response) : Prop :=
  (r.time_stamp.isSome = true → r.response_length.isSome = true) ∧
  (r.command_id.isSome = true → r.time_stamp.isSome = true) ∧
  (r.pathway_state.isSome = true → r.command_id.isSome = true) ∧
  (r.test_state.isSome = true → r.pathway_state.isSome = true) ∧
  (r.response.isSome = true → r.test_state.isSome = true) ∧
  (r.test_time_stamp.isSome = true → r.response.isSome = true) ∧
  (r.error_message.isSome = true → r.test_time_stamp.isSome = true)

/-! ## Byte-level arithmetic lemmas -/

lemma bin8_length (y : Nat) : (bin8 y).length = 8 := by simp [bin8]

lemma int_of_bin_bin8 (y : Nat) : int_of_bin (bin8 y) = y % 256 := by
  show int_of_bin [y>>>7%2, y>>>6%2, y>>>5%2, y>>>4%2, y>>>3%2, y>>>2%2, y>>>1%2, y>>>0%2] = _
  simp only [int_of_bin, List.foldl_cons, List.foldl_nil, Nat.shiftRight_eq_div_pow]
  norm_num
  omega

lemma rev_bits_split (y w : Nat) :
    ((List.range (8 + w)).map (fun i => (y >>> i) % 2)).reverse =
      ((List.range w).map (fun i => ((y >>> 8) >>> i) % 2)).reverse ++
      ((List.range 8).map (fun i => (y >>> i) % 2)).reverse := by
  rw [List.range_add, List.map_append, List.reverse_append]
  congr 2
  rw [List.map_map]
  apply List.map_congr_left
  intro i _
  simp [Function.comp, Nat.shiftRight_add]

lemma bin32_chunks (x : Nat) :
    bin32 x = bin8 (x >>> 24) ++ (bin8 (x >>> 16) ++ (bin8 (x >>> 8) ++ bin8 x)) := by
  unfold bin32 bin8
  rw [show (32:Nat) = 8 + 24 from rfl, rev_bits_split]
  rw [show (24:Nat) = 8 + 16 from rfl, rev_bits_split]
  rw [show (16:Nat) = 8 + 8 from rfl, rev_bits_split]
  simp [← Nat.shiftRight_add, List.append_assoc]

lemma byteFromBin_one (x : Nat) : byteFromBin (bin32 x) 1 = x >>> 24 % 256 := by
  unfold byteFromBin
  rw [bin32_chunks]
  norm_num
  rw [List.take_left' (bin8_length _), int_of_bin_bin8]

lemma byteFromBin_two (x : Nat) : byteFromBin (bin32 x) 2 = x >>> 16 % 256 := by
  unfold byteFromBin
  rw [bin32_chunks]
  norm_num
  rw [List.drop_left' (bin8_length _), List.take_left' (bin8_length _), int_of_bin_bin8]

lemma byteFromBin_three (x : Nat) : byteFromBin (bin32 x) 3 = x >>> 8 % 256 := by
  unfold byteFromBin
  rw [bin32_chunks]
  norm_num
  rw [← List.append_assoc]
  rw [List.drop_left' (by simp [bin8_length] : ((bin8 (x >>> 24) ++ bin8 (x >>> 16)).length = 16))]
  rw [List.take_left' (bin8_length _), int_of_bin_bin8]

lemma byteFromBin_four (x : Nat) : byteFromBin (bin32 x) 4 = x % 256 := by
  unfold byteFromBin
  rw [bin32_chunks]
  norm_num
  rw [← List.append_assoc, ← List.append_assoc]
  rw [List.drop_left' (by simp [bin8_length] :
    ((bin8 (x >>> 24) ++ bin8 (x >>> 16) ++ bin8 (x >>> 8)).length = 24))]
  rw [show (8:Nat) = (bin8 x).length from (bin8_length x).symm, List.take_length, int_of_bin_bin8]

lemma fourBytesLE_eq (x : Nat) :
    fourBytesLE x = [x % 256, x / 256 % 256, x / 65536 % 256, x / 16777216 % 256] := by
  show [byteFromBin (bin32 x) 4, byteFromBin (bin32 x) 3,
        byteFromBin (bin32 x) 2, byteFromBin (bin32 x) 1] = _
  rw [byteFromBin_one, byteFromBin_two, byteFromBin_three, byteFromBin_four]
  simp [Nat.shiftRight_eq_div_pow]

lemma int_of_bin_acc (l : List Nat) :
    ∀ a : Nat, l.foldl (fun x b => 2 * x + b) a = a * 2 ^ l.length + l.foldl (fun x b => 2 * x + b) 0 := by
  induction l with
  | nil => intro a; simp
  | cons c t ih =>
      intro a
      simp only [List.foldl_cons, List.length_cons]
      rw [ih (2 * a + c), ih (2 * 0 + c), pow_succ]
      ring

lemma int_of_bin_append (l1 l2 : List Nat) :
    int_of_bin (l1 ++ l2) = int_of_bin l1 * 2 ^ l2.length + int_of_bin l2 := by
  unfold int_of_bin
  rw [List.foldl_append]
  exact int_of_bin_acc l2 _

lemma decodeInt_four (data : List Nat) (a b0 b1 b2 b3 : Nat)
    (h : (data.drop a).take 4 = [b0, b1, b2, b3]) :
    decodeInt data a (a + 4) =
      some (b0 % 256 + 256 * (b1 % 256) + 65536 * (b2 % 256) + 16777216 * (b3 % 256)) := by
  have h4 : a + 4 - a = 4 := by omega
  simp only [decodeInt, h4, h, List.length_cons, List.length_nil]
  norm_num
  rw [int_of_bin_append, int_of_bin_append, int_of_bin_append]
  rw [int_of_bin_bin8, int_of_bin_bin8, int_of_bin_bin8, int_of_bin_bin8]
  simp [List.length_append, bin8_length]
  ring

/-! ## Facts about the encoder -/

lemma mod256_mod256 (a : Nat) : a % 256 % 256 = a % 256 := Nat.mod_mod_of_dvd a dvd_rfl

lemma fourBytesLE_length (x : Nat) : (fourBytesLE x).length = 4 := by
  rw [fourBytesLE_eq]; rfl

lemma format_command_payload (t p : Nat) (hp : p ≠ 0) :
    format_command t 1 (some p) =
      [9, 0, 0, 0, t % 256, t / 256 % 256, t / 65536 % 256, t / 16777216 % 256, 1,
       p % 256, p / 256 % 256, p / 65536 % 256, p / 16777216 % 256] := by
  have hc : ((1:Nat) == 1 && protocolTruthy (some p)) = true := by
    simp [protocolTruthy, bne_iff_ne, hp]
  simp only [format_command, hc, if_true, Option.getD_some]
  rw [fourBytesLE_eq t, fourBytesLE_eq p]
  norm_num [fourBytesLE_eq, mod256_mod256]

lemma format_command_plain (t cmd : Nat) (proto : Option Nat)
    (h : (cmd == 1 && protocolTruthy proto) = false) :
    format_command t cmd proto =
      [5, 0, 0, 0, t % 256, t / 256 % 256, t / 65536 % 256, t / 16777216 % 256, cmd % 256] := by
  simp only [format_command, h, if_false, Bool.false_eq_true]
  rw [fourBytesLE_eq t]
  norm_num [fourBytesLE_eq, mod256_mod256]

lemma command_codes_lt (c : Nat) (h : (command_codes c).isSome = true) : c < 9 := by
  by_contra hge
  push_neg at hge
  obtain ⟨k, rfl⟩ : ∃ k, c = k + 9 := ⟨c - 9, by omega⟩
  simp [command_codes] at h

/-! ## Facts about the decoder -/

lemma decodeInt_some_of_le (data : List Nat) (a b : Nat) (h : b ≤ data.length) :
    ∃ v, decodeInt data a b = some v := by
  simp only [decodeInt, List.length_take, List.length_drop]
  rw [if_pos (by omega)]
  exact ⟨_, rfl⟩

/-! ## Facts about the polling loop -/

lemma poll_loop_false (vals : Nat → Option String) (desired : String) (pm : Int)
    (hnever : ∀ k, pollVal (vals k) ≠ desired) (hpm : 0 < pm) :
    ∀ (fuel count : Nat) (val : String), val ≠ desired → 1 ≤ count → (count : Int) ≤ pm →
      pm < (count : Int) + (fuel : Int) →
      poll_loop vals desired pm val count fuel = PollOutcome.finishedFalse pm.toNat := by
  intro fuel
  induction fuel with
  | zero =>
      intro count val hval h1 h2 h3
      exfalso
      push_cast at h3
      omega
  | succ f ih =>
      intro count val hval h1 h2 h3
      simp only [poll_loop]
      rw [if_neg hval]
      by_cases hstop : 0 < pm ∧ ((count : Int) + 1 > pm)
      · rw [if_pos hstop]
        congr 1
        omega
      · rw [if_neg hstop]
        apply ih (count + 1) _ (hnever (count - 1)) (by omega)
        · push_cast
          omega
        · push_cast at h3 ⊢
          omega

lemma poll_loop_nonpos (vals : Nat → Option String) (desired : String) (pm : Int)
    (hpm : pm ≤ 0) (hnever : ∀ k, pollVal (vals k) ≠ desired) :
    ∀ (fuel count : Nat) (val : String), val ≠ desired →
      poll_loop vals desired pm val count fuel = PollOutcome.outOfFuel := by
  intro fuel
  induction fuel with
  | zero => intro count val _; rfl
  | succ f ih =>
      intro count val hval
      simp only [poll_loop]
      rw [if_neg hval, if_neg (by omega : ¬(0 < pm ∧ ((count : Int) + 1 > pm)))]
      exact ih (count + 1) _ (hnever (count - 1))

/-! ## The claims -/

/-- Claim C1: codec round-trip symmetry.  For every command code known to the code
table and every valid (positive, 32-bit) protocol number, the encoded message carries
the command code verbatim at byte offset 8, and for TEST_PROGRAM (code 1) reassembling
the four payload bytes at offsets 9..12 the way the decoder `_decode` does yields the
protocol number back. -/
theorem c1_roundtrip (t cmd n : Nat) (hc : (command_codes cmd).isSome = true)
    (h0 : 0 < n) (h32 : n < 4294967296) :
    (format_command t cmd (some n)).get? 8 = some cmd ∧
    (cmd = 1 → decodeInt (format_command t cmd (some n)) 9 13 = some n) := by
  have hlt : cmd < 9 := command_codes_lt cmd hc
  have hmod : cmd % 256 = cmd := Nat.mod_eq_of_lt (by omega)
  have hpne : n ≠ 0 := Nat.pos_iff_ne_zero.mp h0
  by_cases h1 : cmd = 1
  · subst h1
    rw [format_command_payload t n hpne]
    refine ⟨rfl, fun _ => ?_⟩
    have hdec := decodeInt_four
      [9, 0, 0, 0, t % 256, t / 256 % 256, t / 65536 % 256, t / 16777216 % 256, 1,
       n % 256, n / 256 % 256, n / 65536 % 256, n / 16777216 % 256] 9
      (n % 256) (n / 256 % 256) (n / 65536 % 256) (n / 16777216 % 256) rfl
    norm_num [mod256_mod256] at hdec
    rw [hdec]
    simp only [Option.some.injEq]
    omega
  · have hcf : (cmd == 1 && protocolTruthy (some n)) = false := by
      simp [beq_iff_eq, h1]
    rw [format_command_plain t cmd _ hcf]
    refine ⟨?_, fun h => absurd h h1⟩
    have hg : List.get?
        [5, 0, 0, 0, t % 256, t / 256 % 256, t / 65536 % 256, t / 16777216 % 256, cmd % 256] 8 =
        some (cmd % 256) := rfl
    rw [hg, hmod]

/-- Witness for C1 at timestamp 0, command TEST_PROGRAM, protocol number 42. -/
theorem c1_roundtrip_witness :
    (format_command 0 1 (some 42)).get? 8 = some 1 ∧
    ((1:Nat) = 1 → decodeInt (format_command 0 1 (some 42)) 9 13 = some 42) :=
  c1_roundtrip 0 1 42 (by decide) (by decide) (by decide)

/-- Claim C2: the 4-byte length prefix written by `_format_command` always decodes to
the exact number of elements that follow it, namely 9 when the protocol payload is
present (TEST_PROGRAM with a truthy protocol number) and 5 otherwise. -/
theorem c2_length_prefix (t cmd : Nat) (proto : Option Nat) :
    decodeInt (format_command t cmd proto) 0 4 =
      some ((format_command t cmd proto).length - 4) ∧
    (format_command t cmd proto).length - 4 =
      (if cmd == 1 && protocolTruthy proto then 9 else 5) := by
  by_cases hc : (cmd == 1 && protocolTruthy proto) = true
  · have h1 : cmd = 1 := by
      rcases Bool.and_eq_true_iff.mp hc with ⟨h, _⟩
      exact eq_of_beq h
    have hp : protocolTruthy proto = true := (Bool.and_eq_true_iff.mp hc).2
    obtain ⟨p, rfl⟩ : ∃ p, proto = some p := by
      cases proto with
      | none => simp [protocolTruthy] at hp
      | some p => exact ⟨p, rfl⟩
    have hpne : p ≠ 0 := by simpa [protocolTruthy, bne_iff_ne] using hp
    subst h1
    rw [format_command_payload t p hpne]
    have hdec := decodeInt_four
      [9, 0, 0, 0, t % 256, t / 256 % 256, t / 65536 % 256, t / 16777216 % 256, 1,
       p % 256, p / 256 % 256, p / 65536 % 256, p / 16777216 % 256] 0 9 0 0 0 rfl
    norm_num at hdec ⊢
    simp [hdec, hc, hp]
  · have hc' : (cmd == 1 && protocolTruthy proto) = false := by
      simpa using hc
    rw [format_command_plain t cmd proto hc']
    have hdec := decodeInt_four
      [5, 0, 0, 0, t % 256, t / 256 % 256, t / 65536 % 256, t / 16777216 % 256, cmd % 256]
      0 5 0 0 0 rfl
    norm_num at hdec ⊢
    simp only [Bool.and_eq_true, beq_iff_eq, not_and] at hc
    by_cases h1 : cmd = 1
    · subst h1
      norm_num at hdec
      simp [hdec, hc rfl]
    · simp [hdec, h1]

/-- Claim C4: the self-retry of `call` on decode failure is NOT bounded.  For a stream
of n malformed (empty-decoding) responses the call sends the command n + 1 times and
is still running when the stream ends, for every n: no recursion cap exists. -/
theorem c4_unbounded_retry (t n : Nat) :
    (call t 0 none (List.replicate n [])).2 = CallOutcome.exhausted ∧
    countSends (call t 0 none (List.replicate n [])).1 = n + 1 := by
  induction n with
  | zero => exact ⟨rfl, rfl⟩
  | succ k ih =>
      rw [List.replicate_succ]
      have hempty : (format_response []).isEmptyDict = true := rfl
      simp only [call, hempty, if_true]
      norm_num
      refine ⟨ih.1, ?_⟩
      have h2 := ih.2
      simp only [countSends, List.filter] at h2 ⊢
      simp [h2]

/-- Claim C5, counterexample: with maxAttempts 3 against a source whose watched field
is constantly IDLE — hence never equal to the desired value, here the empty string —
the loop exits immediately with True (serverLag applied) after zero STATUS calls,
because the loop variable is initialised to the empty string: the claim predicts
False after exactly three calls. -/
theorem c5_cex :
    poll_for_change (fun _ => some "IDLE") "" 3 5 = PollOutcome.finishedTrue 0 ∧
    pollVal (some "IDLE") ≠ "" := by
  exact ⟨rfl, by decide⟩

/-- Claim C5 as amended: provided the desired value differs from the empty-string
initial sentinel and the compared value (watched field, or the
RESPONSE_FORMAT_ERROR sentinel on a falsy response) never equals it, a positive
maxAttempts within the modelled fuel makes the loop return False after exactly
maxAttempts STATUS calls with no serverLag sleep, and a nonpositive maxAttempts
never returns False: the loop is still polling after any number of iterations. -/
theorem c5_amended (vals : Nat → Option String) (desired : String) (fuel : Nat)
    (hne : desired ≠ "") (hnever : ∀ k, pollVal (vals k) ≠ desired) :
    (∀ pm : Int, 0 < pm → pm ≤ (fuel : Int) →
        poll_for_change vals desired pm fuel = PollOutcome.finishedFalse pm.toNat) ∧
    (∀ pm : Int, pm ≤ 0 →
        poll_for_change vals desired pm fuel = PollOutcome.outOfFuel) := by
  constructor
  · intro pm hpm hle
    have h2 : ((1 : Nat) : Int) ≤ pm := by push_cast; omega
    have h3 : pm < ((1 : Nat) : Int) + (fuel : Int) := by push_cast; omega
    exact poll_loop_false vals desired pm hnever hpm fuel 1 "" (Ne.symm hne) le_rfl h2 h3
  · intro pm hpm
    exact poll_loop_nonpos vals desired pm hpm hnever fuel 1 "" (Ne.symm hne)

/-- Witness for the amended C5: a stub constantly reporting IDLE while RUNNING is
desired, with maxAttempts 3, returns False after exactly 3 calls. -/
theorem c5_amended_witness :
    poll_for_change (fun _ => some "IDLE") "RUNNING" 3 3 = PollOutcome.finishedFalse (Int.toNat 3) :=
  (c5_amended (fun _ => some "IDLE") "RUNNING" 3 (by decide)
      (by intro k; exact (by decide : pollVal (some "IDLE") ≠ "RUNNING"))).1 3
    (by decide) (by norm_num)

/-- Claim C6: the error_message field is present only when the decoded
response_length exceeds 13; when the decoded length is at most 13 the field is
genuinely absent; and on every valid buffer (all four code lookups succeed) of
length at least 18 whose response_length exceeds 13, the field is present. -/
theorem c6_error_message (data : List Nat) :
    ((format_response data).error_message.isSome = true →
      ∃ L, (format_response data).response_length = some L ∧ 13 < L) ∧
    (∀ L, decodeInt data 0 4 = some L → L ≤ 13 →
      (format_response data).error_message = none) ∧
    (18 ≤ data.length → validCodes data = true →
      ∀ L, decodeInt data 0 4 = some L → 13 < L →
        (format_response data).error_message.isSome = true) := by
  refine ⟨?_, ?_, ?_⟩
  · unfold format_response format_response_tracked
    repeat' split
    all_goals simp_all
  · intro L hL h13
    unfold format_response format_response_tracked
    repeat' split
    all_goals simp_all
    all_goals omega
  · intro h18 hvc L hL h13
    obtain ⟨b8, hb8⟩ : ∃ b, data.get? 8 = some b := ⟨_, List.get?_eq_get (by omega)⟩
    obtain ⟨b9, hb9⟩ : ∃ b, data.get? 9 = some b := ⟨_, List.get?_eq_get (by omega)⟩
    obtain ⟨b10, hb10⟩ : ∃ b, data.get? 10 = some b := ⟨_, List.get?_eq_get (by omega)⟩
    obtain ⟨b17, hb17⟩ : ∃ b, data.get? 17 = some b := ⟨_, List.get?_eq_get (by omega)⟩
    obtain ⟨T, hT⟩ := decodeInt_some_of_le data 4 8 (by omega)
    obtain ⟨R, hR⟩ := decodeInt_some_of_le data 11 13 (by omega)
    obtain ⟨TT, hTT⟩ := decodeInt_some_of_le data 13 17 (by omega)
    simp only [validCodes, hb8, hb9, hb10, hR, Bool.and_eq_true] at hvc
    obtain ⟨⟨⟨hc8, hc9⟩, hc10⟩, hcR⟩ := hvc
    obtain ⟨cname, hcname⟩ := Option.isSome_iff_exists.mp hc8
    obtain ⟨sname, hsname⟩ := Option.isSome_iff_exists.mp hc9
    obtain ⟨tname, htname⟩ := Option.isSome_iff_exists.mp hc10
    obtain ⟨rname, hrname⟩ := Option.isSome_iff_exists.mp hcR
    simp only [format_response, format_response_tracked, hL, hT, hb8, hcname, hb9, hsname,
      hb10, htname, hR, hrname, hTT, if_pos h13, hb17]
    rfl

/-- Witness for C6 on an 18-byte valid buffer with response_length 14 and
error byte 65 at offset 17. -/
theorem c6_error_message_witness :
    (format_response [14, 0, 0, 0, 0, 0, 0, 0, 0, 0, 0, 0, 0, 0, 0, 0, 0, 65]).error_message.isSome
      = true :=
  (c6_error_message [14, 0, 0, 0, 0, 0, 0, 0, 0, 0, 0, 0, 0, 0, 0, 0, 0, 65]).2.2
    (by decide) (by decide) 14 (by decide) (by decide)

/-- Claim C7: `_decode_test_time` splits the raw millisecond count correctly by
integer division with remainder chaining, but the milliseconds are rendered with
the space-padding `%3d`, not zero-padded: 3661001 ms renders as "01:01:01.  1"
(not "01:01:01.001") and 0 renders as "00:00:00.  0" (not "00:00:00.000"). -/
theorem c7_test_time_space_padded :
    format_test_time 3661001 = "01:01:01.  1" ∧
    format_test_time 0 = "00:00:00.  0" ∧
    decode_test_time (List.replicate 13 0 ++ [201, 220, 55, 0]) = some "01:01:01.  1" ∧
    "01:01:01.  1" ≠ "01:01:01.001" ∧
    "00:00:00.  0" ≠ "00:00:00.000" := by
  refine ⟨rfl, rfl, rfl, by decide, by decide⟩

/-- Claim C8, counterexample: calling TEST_PROGRAM without a protocol number raises,
but only after the socket connection has been opened: the event trace of the failed
call is exactly one connect event, so the claim that no connection is opened is
false on the code. -/
theorem c8_cex : call 0 1 none [] =
    ([CallEvent.connect], CallOutcome.raised "TEST_PROGRAM command requires a protocol number") :=
  rfl

/-- Claim C8 as amended: `call` with TEST_PROGRAM and no protocol number raises the
missing-protocol error before any bytes are sent or received, but after a socket
connection has been opened (connection creation precedes argument validation). -/
theorem c8_amended (t : Nat) (stream : List (List Nat)) :
    call t 1 none stream =
      ([CallEvent.connect], CallOutcome.raised "TEST_PROGRAM command requires a protocol number") := by
  cases stream <;> simp [call]

/-- Claim C9: `_format_response` is total over raw byte input: the except clause
returns the dict built by the try body for every input, a run with no internal
failure has all seven unconditional fields present, and every returned dict is an
order-respecting prefix of the field sequence (each field present only when all
fields decoded before it are present). -/
theorem c9_total_partial (data : List Nat) :
    format_response data = (format_response_tracked data).1 ∧
    ((format_response_tracked data).2 = none → allDecoded (format_response data)) ∧
    decodedChain (format_response data) := by
  refine ⟨rfl, ?_, ?_⟩
  · unfold format_response format_response_tracked
    repeat' split
    all_goals simp_all [allDecoded]
  · unfold format_response format_response_tracked decodedChain
    repeat' split
    all_goals simp_all

/-- Witness for C9 at the empty byte string. -/
theorem c9_total_partial_witness :
    format_response [] = (format_response_tracked []).1 ∧
    ((format_response_tracked []).2 = none → allDecoded (format_response [])) ∧
    decodedChain (format_response []) :=
  c9_total_partial []

/-- Claim C10: with protocol number 0 for TEST_PROGRAM, the None-check in `call`
passes (no error is raised, the message is sent), yet the encoder tests truthiness,
so the encoded message is identical to the no-protocol encoding: length prefix 5
and no protocol payload. -/
theorem c10_protocol_zero (t : Nat) :
    format_command t 1 (some 0) = format_command t 1 none ∧
    (format_command t 1 (some 0)).take 4 = [5, 0, 0, 0] ∧
    (format_command t 1 (some 0)).length = 9 ∧
    call t 1 (some 0) [] =
      ([CallEvent.connect, CallEvent.sendBytes (format_command t 1 (some 0))],
        CallOutcome.exhausted) := by
  have h0 : ((1:Nat) == 1 && protocolTruthy (some 0)) = false := by simp [protocolTruthy]
  have hn : ((1:Nat) == 1 && protocolTruthy none) = false := by simp [protocolTruthy]
  refine ⟨?_, ?_, ?_, ?_⟩
  · rw [format_command_plain t 1 _ h0, format_command_plain t 1 _ hn]
  · rw [format_command_plain t 1 _ h0]; rfl
  · rw [format_command_plain t 1 _ h0]; rfl
  · simp [call]

end Pymedoc
